import Mathlib

/-!
# Shallow embedding of the `cel-interpreter` evaluator

This file embeds the evaluator of the `cel-rust` repository
(`interpreter/src/objects.rs` and `interpreter/src/functions.rs`) in Lean 4
and proves the specification claims about it.

Modelling conventions:
* `i64` is modelled as `Int`; the `as usize` cast is modelled explicitly
  (`usizeOfInt`), and `usize as i64` by `i64OfUsize`.
* `rust_decimal::Decimal` is modelled as `Rat` (exact decimal arithmetic;
  the claims under verification never exercise decimal division rounding,
  the only place where `rust_decimal` deviates from exact rationals).
* `Rc<String>` / `Rc<Vec<u8>>` / `Rc<[CelType]>` are modelled as `String`,
  `List Nat`, `List CelType` (reference counting is not observable).
* `HashMap<CelKey, CelType>` is modelled as an association list with unique
  keys, built by `CelMap.insert` (replace-on-collision, append otherwise);
  `collect` on an iterator of pairs is a left fold of inserts, exactly the
  later-entry-wins behaviour of `HashMap::from_iter`.
* The Rust code has no error type: it fails only by panicking
  (`Option::unwrap` on `None`, `unimplemented!()`, `unreachable!()`, and
  arithmetic aborts).  Evaluation is therefore embedded in
  `Except EvalError`, where the `panic*` constructors stand for the panics
  actually present in the source.  The remaining `EvalError` constructors
  mirror the error taxonomy of §7 of the design spec; they exist so that
  the spec's claims about error kinds can be stated, and the embedded code
  never produces them.
-/

/-- Error outcomes.  The first group mirrors the spec's §7 taxonomy (never
produced by the embedded source code); the `panic*` group models the panics
the source code actually contains. -/
inductive EvalError where
  | typeMismatch
  | invalidKey
  | indexOutOfRange
  | noSuchKey
  | unknownIdent
  | unknownFunction
  | unknownMember
  | notCallable
  | unsupported
  | divideByZero
  | panicUnwrap
  | panicUnimplemented
  | panicUnreachable
  | panicDivideByZero
deriving DecidableEq, Repr

/-- `CelKey` from `objects.rs`: the kinds of values admissible as map keys.
`Uint` holds a `u32` in the source; modelled as `Nat`. -/
inductive CelKey where
  | integer : Int → CelKey
  | uint : Nat → CelKey
  | bool : Bool → CelKey
  | string : String → CelKey
deriving DecidableEq, Repr

/-- `CelType` from `objects.rs`: the tagged value domain.  `Map` holds a
key-unique association list standing for `Rc<HashMap<CelKey, CelType>>`;
`Function` carries a name and an optional boxed receiver. -/
inductive CelType where
  | list : List CelType → CelType
  | map : List (CelKey × CelType) → CelType
  | function : String → Option CelType → CelType
  | integer : Int → CelType
  | decimal : Rat → CelType
  | string : String → CelType
  | bytes : List Nat → CelType
  | bool : Bool → CelType
  | null : CelType
deriving Repr

mutual

/-- Rust's derived `PartialEq` on `CelType`: structural equality — values of
different variants are never equal, same-variant values compare payloads
(`HashMap` equality is extensional; on the key-unique association lists the
evaluator builds it coincides with entrywise equality up to entry order,
and no claim distinguishes entry orders, so entrywise equality is used). -/
def CelType.beq : CelType → CelType → Bool
  | .list l, .list r => CelType.beqList l r
  | .map l, .map r => CelType.beqPairs l r
  | .function n₁ t₁, .function n₂ t₂ => n₁ == n₂ && CelType.beqOpt t₁ t₂
  | .integer a, .integer b => a == b
  | .decimal a, .decimal b => a == b
  | .string a, .string b => a == b
  | .bytes a, .bytes b => a == b
  | .bool a, .bool b => a == b
  | .null, .null => true
  | _, _ => false

/-- Elementwise equality of value lists (Rust slice `PartialEq`). -/
def CelType.beqList : List CelType → List CelType → Bool
  | [], [] => true
  | a :: l, b :: r => CelType.beq a b && CelType.beqList l r
  | _, _ => false

/-- Entrywise equality of map entry lists. -/
def CelType.beqPairs : List (CelKey × CelType) → List (CelKey × CelType) → Bool
  | [], [] => true
  | (k₁, v₁) :: l, (k₂, v₂) :: r =>
    k₁ == k₂ && CelType.beq v₁ v₂ && CelType.beqPairs l r
  | _, _ => false

/-- Equality of optional boxed receivers (Rust `Option<Box<CelType>>`). -/
def CelType.beqOpt : Option CelType → Option CelType → Bool
  | none, none => true
  | some a, some b => CelType.beq a b
  | _, _ => false

end

/-- The `as usize` cast of an `i64`: reduce modulo `2^64` (negative values
wrap around to huge indices). -/
def usizeOfInt (i : Int) : Nat := (i % (2 ^ 64 : Int)).toNat

/-- The `as i64` cast of a `usize`. -/
def i64OfUsize (n : Nat) : Int :=
  let m : Int := (n : Int) % (2 ^ 64 : Int)
  if m < 2 ^ 63 then m else m - 2 ^ 64

/-- Discriminant position of a `CelType` variant, in source declaration
order; Rust's derived `PartialOrd` orders across variants by this. -/
def CelType.tag : CelType → Nat
  | .list _ => 0
  | .map _ => 1
  | .function _ _ => 2
  | .integer _ => 3
  | .decimal _ => 4
  | .string _ => 5
  | .bytes _ => 6
  | .bool _ => 7
  | .null => 8

/-- Lexicographic comparison of byte vectors (Rust `Vec<u8>` `Ord`). -/
def byteListCmp : List Nat → List Nat → Ordering
  | [], [] => .eq
  | [], _ :: _ => .lt
  | _ :: _, [] => .gt
  | a :: l, b :: r =>
    match compare a b with
    | .eq => byteListCmp l r
    | o => o

mutual

/-- Rust's derived `PartialOrd::partial_cmp` on `CelType`: different
variants compare by declaration-order discriminant; same variants compare
payloads.  `Map` payloads use the manual `CelMap` impl, which returns
`None`; `Decimal` is numeric; `String` is byte-lexicographic, which for
valid UTF-8 coincides with code-point order. -/
def CelType.celCmp : CelType → CelType → Option Ordering
  | .list l, .list r => CelType.celCmpList l r
  | .map _, .map _ => none
  | .function n₁ t₁, .function n₂ t₂ =>
    match compare n₁ n₂ with
    | .eq => CelType.celCmpOpt t₁ t₂
    | o => some o
  | .integer a, .integer b => some (compare a b)
  | .decimal a, .decimal b => some (compare a b)
  | .string a, .string b => some (compare a b)
  | .bytes a, .bytes b => some (byteListCmp a b)
  | .bool a, .bool b => some (compare a b)
  | .null, .null => some .eq
  | a, b => some (compare a.tag b.tag)

/-- Lexicographic slice comparison with `None` propagation (Rust
`[CelType]` `PartialOrd`). -/
def CelType.celCmpList : List CelType → List CelType → Option Ordering
  | [], [] => some .eq
  | [], _ :: _ => some .lt
  | _ :: _, [] => some .gt
  | a :: l, b :: r =>
    match CelType.celCmp a b with
    | some .eq => CelType.celCmpList l r
    | o => o

/-- `Option<Box<CelType>>` comparison: `None` sorts before `Some` (Rust
`Option` `PartialOrd`). -/
def CelType.celCmpOpt : Option CelType → Option CelType → Option Ordering
  | none, none => some .eq
  | none, some _ => some .lt
  | some _, none => some .gt
  | some a, some b => CelType.celCmp a b

end

/-- Rust `PartialOrd::lt`: `partial_cmp` yields `Some(Less)`. -/
def CelType.ltB (a b : CelType) : Bool := CelType.celCmp a b == some .lt

/-- Rust `PartialOrd::le`: `partial_cmp` yields `Some(Less | Equal)`. -/
def CelType.leB (a b : CelType) : Bool :=
  match CelType.celCmp a b with
  | some .lt => true
  | some .eq => true
  | _ => false

/-- Rust `PartialOrd::gt`: `partial_cmp` yields `Some(Greater)`. -/
def CelType.gtB (a b : CelType) : Bool := CelType.celCmp a b == some .gt

/-- Rust `PartialOrd::ge`: `partial_cmp` yields `Some(Greater | Equal)`. -/
def CelType.geB (a b : CelType) : Bool :=
  match CelType.celCmp a b with
  | some .gt => true
  | some .eq => true
  | _ => false

/-- `CelType::to_bool` from `objects.rs`: truthiness. -/
def CelType.toBool : CelType → Bool
  | .list v => !v.isEmpty
  | .map v => !v.isEmpty
  | .integer v => v != 0
  | .decimal v => v != 0
  | .string v => !v.isEmpty
  | .bytes v => !v.isEmpty
  | .bool v => v
  | .null => false
  | .function _ _ => false

/-- `TryInto<CelKey> for CelType` from `objects.rs`: `Integer`, `String`
and `Bool` convert; every other variant hits `unimplemented!()` (a panic,
not an `Err`). -/
def CelType.tryIntoKey : CelType → Except EvalError CelKey
  | .integer v => .ok (.integer v)
  | .string v => .ok (.string v)
  | .bool v => .ok (.bool v)
  | _ => .error .panicUnimplemented

/-- `HashMap::contains_key` on the association-list model. -/
def mapContains : List (CelKey × CelType) → CelKey → Bool
  | [], _ => false
  | p :: rest, k => p.1 == k || mapContains rest k

/-- `HashMap` lookup on the association-list model (keys are unique, so
the first match is the binding). -/
def mapLookup : List (CelKey × CelType) → CelKey → Option CelType
  | [], _ => none
  | p :: rest, k => if p.1 == k then some p.2 else mapLookup rest k

/-- Replace an entry by `(k, v)` when its key is `k`, else keep it. -/
def keyReplace (k : CelKey) (v : CelType) (p : CelKey × CelType) :
    CelKey × CelType :=
  if p.1 == k then (k, v) else p

/-- `HashMap::insert`: replace the binding when the key is present,
append otherwise. -/
def mapInsert (m : List (CelKey × CelType)) (k : CelKey) (v : CelType) :
    List (CelKey × CelType) :=
  if mapContains m k then m.map (keyReplace k v)
  else m ++ [(k, v)]

/-- `HashMap::from_iter` over a pair iterator: left fold of inserts, so a
later pair with an equal key overwrites an earlier one. -/
def mapInsertAll (m : List (CelKey × CelType))
    (ps : List (CelKey × CelType)) : List (CelKey × CelType) :=
  ps.foldl (fun acc p => mapInsert acc p.1 p.2) m

/-- Truncate a rational toward zero (`rust_decimal`'s division direction,
used to model its `Rem`). -/
def ratTrunc (q : Rat) : Int := if q < 0 then Rat.ceil q else Rat.floor q

/-- Remainder with the sign of the dividend (`rust_decimal` `Rem`). -/
def ratRem (l r : Rat) : Rat := l - r * (ratTrunc (l / r) : Rat)

/-- `ops::Add for CelType`: the numeric matrix with integer→decimal
promotion, string concatenation and list concatenation; every other pair
hits `unimplemented!()`. -/
def CelType.add : CelType → CelType → Except EvalError CelType
  | .integer l, .integer r => .ok (.integer (l + r))
  | .decimal l, .decimal r => .ok (.decimal (l + r))
  | .integer l, .decimal r => .ok (.decimal ((l : Rat) + r))
  | .decimal l, .integer r => .ok (.decimal (l + (r : Rat)))
  | .list l, .list r => .ok (.list (l ++ r))
  | .string l, .string r => .ok (.string (l ++ r))
  | _, _ => .error .panicUnimplemented

/-- `ops::Sub for CelType`: the numeric matrix only. -/
def CelType.sub : CelType → CelType → Except EvalError CelType
  | .integer l, .integer r => .ok (.integer (l - r))
  | .decimal l, .decimal r => .ok (.decimal (l - r))
  | .integer l, .decimal r => .ok (.decimal ((l : Rat) - r))
  | .decimal l, .integer r => .ok (.decimal (l - (r : Rat)))
  | _, _ => .error .panicUnimplemented

/-- `ops::Mul for CelType`: the numeric matrix only. -/
def CelType.mul : CelType → CelType → Except EvalError CelType
  | .integer l, .integer r => .ok (.integer (l * r))
  | .decimal l, .decimal r => .ok (.decimal (l * r))
  | .integer l, .decimal r => .ok (.decimal ((l : Rat) * r))
  | .decimal l, .integer r => .ok (.decimal (l * (r : Rat)))
  | _, _ => .error .panicUnimplemented

/-- `ops::Div for CelType`: truncating `i64` division, exact decimal
division otherwise (`rust_decimal` additionally rounds to 28 significant
digits, which no claim exercises); division by zero panics in Rust. -/
def CelType.div : CelType → CelType → Except EvalError CelType
  | .integer l, .integer r =>
    if r = 0 then .error .panicDivideByZero else .ok (.integer (Int.tdiv l r))
  | .decimal l, .decimal r =>
    if r = 0 then .error .panicDivideByZero else .ok (.decimal (l / r))
  | .integer l, .decimal r =>
    if r = 0 then .error .panicDivideByZero else .ok (.decimal ((l : Rat) / r))
  | .decimal l, .integer r =>
    if r = 0 then .error .panicDivideByZero else .ok (.decimal (l / (r : Rat)))
  | _, _ => .error .panicUnimplemented

/-- `ops::Rem for CelType`: truncating `i64` remainder and decimal
remainder; remainder by zero panics in Rust. -/
def CelType.rem : CelType → CelType → Except EvalError CelType
  | .integer l, .integer r =>
    if r = 0 then .error .panicDivideByZero else .ok (.integer (Int.tmod l r))
  | .decimal l, .decimal r =>
    if r = 0 then .error .panicDivideByZero else .ok (.decimal (ratRem l r))
  | .integer l, .decimal r =>
    if r = 0 then .error .panicDivideByZero else .ok (.decimal (ratRem (l : Rat) r))
  | .decimal l, .integer r =>
    if r = 0 then .error .panicDivideByZero else .ok (.decimal (ratRem l (r : Rat)))
  | _, _ => .error .panicUnimplemented

/-- Modelled from the spec: `Atom` of the external `cel_parser` crate
(§4.1), the literal kinds; its use is fully determined by the
`From<&Atom> for CelType` impl in `objects.rs`. -/
inductive Atom where
  | integer : Int → Atom
  | decimal : Rat → Atom
  | string : String → Atom
  | bytes : List Nat → Atom
  | bool : Bool → Atom
  | null : Atom
deriving Repr

/-- Modelled from the spec: `ArithmeticOp` of `cel_parser` (§4.1). -/
inductive ArithmeticOp where
  | add | subtract | divide | multiply | modulus
deriving DecidableEq, Repr

/-- Modelled from the spec: `RelationOp` of `cel_parser` (§4.1);
`opIn` is `RelationOp::In`. -/
inductive RelationOp where
  | lessThan | lessThanEq | greaterThan | greaterThanEq
  | equals | notEquals | opIn
deriving DecidableEq, Repr

/-- Modelled from the spec: `UnaryOp` of `cel_parser` (§4.1). -/
inductive UnaryOp where
  | not | doubleNot | minus | doubleMinus
deriving DecidableEq, Repr

mutual

/-- Modelled from the spec: the `Expression` AST of `cel_parser` (§4.1),
with the node kinds `objects.rs` matches on. -/
inductive Expression where
  | atom : Atom → Expression
  | arithmetic : Expression → ArithmeticOp → Expression → Expression
  | relation : Expression → RelationOp → Expression → Expression
  | ternary : Expression → Expression → Expression → Expression
  | or : Expression → Expression → Expression
  | and : Expression → Expression → Expression
  | unary : UnaryOp → Expression → Expression
  | member : Expression → Member → Expression
  | list : List Expression → Expression
  | map : List (Expression × Expression) → Expression
  | ident : String → Expression

/-- Modelled from the spec: the `Member` selector of `cel_parser` (§4.1);
`fields` is reserved for struct construction and unimplemented. -/
inductive Member where
  | attribute : String → Member
  | index : Expression → Member
  | fields : List (String × Expression) → Member
  | functionCall : List Expression → Member

end

/-- `From<&Atom> for CelType` from `objects.rs`. -/
def Atom.toCel : Atom → CelType
  | .integer v => .integer v
  | .decimal v => .decimal v
  | .string v => .string v
  | .bytes v => .bytes v
  | .bool v => .bool v
  | .null => .null

/-- The registered-function implementations present in the interpreter
source; `functions.rs` defines exactly one builtin, `size`.  (Host-supplied
callables are external to the repository and out of scope.) -/
inductive BuiltinFn where
  | size
deriving DecidableEq, Repr

/-- Modelled from the spec: the `Context` of the interpreter (§3, §4.3) —
two name-keyed maps, one of variables and one of functions, modelled as
lookup functions (the source file `context.rs` is not part of the sources
under review; `objects.rs` uses only `contains_key` and `get`).  The first
field is named `variables` in the source; Lean reserves that token, so it
is `vars` here. -/
structure Context where
  vars : String → Option CelType
  functions : String → Option BuiltinFn

/-- `size` from `functions.rs`: unwraps the receiver, measures a list,
map, string (UTF-8 **byte** length, Rust `String::len`) or bytes value,
and returns the length cast `as i64`; any other receiver is
`unreachable!()`. -/
def sizeFn (target : Option CelType) : Except EvalError CelType :=
  match target with
  | none => .error .panicUnwrap
  | some t =>
    match t with
    | .list l => .ok (.integer (i64OfUsize l.length))
    | .map m => .ok (.integer (i64OfUsize m.length))
    | .string s => .ok (.integer (i64OfUsize s.utf8ByteSize))
    | .bytes b => .ok (.integer (i64OfUsize b.length))
    | _ => .error .panicUnreachable

/-- Invoke a registered builtin with the Rust callable signature
`(Option<&CelType>, &[Expression], &Context) → CelType`; `size` ignores
the unevaluated argument slice and the context. -/
def BuiltinFn.apply : BuiltinFn → Option CelType → List Expression → Context →
    Except EvalError CelType
  | .size, target, _, _ => sizeFn target

/-- The `In` relation arm of `CelType::resolve`: substring containment for
strings, element containment (by `PartialEq`) for lists, key containment
for maps after the panicking `try_into().unwrap()` coercion; anything else
is `unimplemented!()`. -/
def celIn : CelType → CelType → Except EvalError Bool
  | .string l, .string r => .ok (r.containsSubstr l)
  | any, .list v => .ok (v.any (fun x => CelType.beq x any))
  | any, .map m => do
    let k ← any.tryIntoKey
    .ok (mapContains m k)
  | _, _ => .error .panicUnimplemented

mutual

/-- `CelType::resolve` from `objects.rs`: recursive reduction of an AST
node to a value under a context.  The Rust function returns `CelType` and
can only fail by panicking; the embedding returns `Except EvalError
CelType` with panics as `.error` outcomes. -/
def CelType.resolve (expr : Expression) (ctx : Context) :
    Except EvalError CelType :=
  match expr with
  | .atom a => .ok a.toCel
  | .arithmetic l op r => do
    let left ← CelType.resolve l ctx
    let right ← CelType.resolve r ctx
    match op with
    | .add => left.add right
    | .subtract => left.sub right
    | .divide => left.div right
    | .multiply => left.mul right
    | .modulus => left.rem right
  | .relation l op r => do
    let left ← CelType.resolve l ctx
    let right ← CelType.resolve r ctx
    let res ←
      match op with
      | .lessThan => .ok (left.ltB right)
      | .lessThanEq => .ok (left.leB right)
      | .greaterThan => .ok (left.gtB right)
      | .greaterThanEq => .ok (left.geB right)
      | .equals => .ok (right.beq left)
      | .notEquals => .ok (!right.beq left)
      | .opIn => celIn left right
    .ok (.bool res)
  | .ternary cond l r => do
    let c ← CelType.resolve cond ctx
    if c.toBool then CelType.resolve l ctx else CelType.resolve r ctx
  | .or l r => do
    let left ← CelType.resolve l ctx
    if left.toBool then pure left else CelType.resolve r ctx
  | .and l r => do
    let left ← CelType.resolve l ctx
    let right ← CelType.resolve r ctx
    pure (.bool (left.toBool && right.toBool))
  | .unary op e => do
    let v ← CelType.resolve e ctx
    match op with
    | .not => pure (.bool (!v.toBool))
    | .doubleNot => pure (.bool v.toBool)
    | .minus =>
      match v with
      | .integer i => pure (.integer (-i))
      | .decimal d => pure (.decimal (-d))
      | _ => .error .panicUnimplemented
    | .doubleMinus =>
      match v with
      | .integer i => pure (.integer i)
      | .decimal d => pure (.decimal d)
      | _ => .error .panicUnimplemented
  | .member l m => do
    let left ← CelType.resolve l ctx
    CelType.member left m ctx
  | .list items => do
    let vs ← CelType.resolveList items ctx
    pure (.list vs)
  | .map items => do
    let ps ← CelType.resolveMapItems items ctx
    pure (.map (mapInsertAll [] ps))
  | .ident name =>
    if (ctx.functions name).isSome then .ok (.function name none)
    else
      match ctx.vars name with
      | some v => .ok v
      | none => .error .panicUnreachable

/-- Left-to-right evaluation of list-literal elements
(`items.iter().map(resolve).collect()`). -/
def CelType.resolveList (items : List Expression) (ctx : Context) :
    Except EvalError (List CelType) :=
  match items with
  | [] => .ok []
  | e :: rest => do
    let v ← CelType.resolve e ctx
    let vs ← CelType.resolveList rest ctx
    pure (v :: vs)

/-- In-order evaluation of map-literal pairs: each key is resolved and
coerced by the panicking `try_into().unwrap()`, each value resolved. -/
def CelType.resolveMapItems (items : List (Expression × Expression))
    (ctx : Context) : Except EvalError (List (CelKey × CelType)) :=
  match items with
  | [] => .ok []
  | (k, v) :: rest => do
    let kv ← CelType.resolve k ctx
    let key ← kv.tryIntoKey
    let value ← CelType.resolve v ctx
    let tail ← CelType.resolveMapItems rest ctx
    pure ((key, value) :: tail)

/-- `CelType::member` from `objects.rs`: member access on a resolved
receiver.  Indexing is implemented only for `List` receivers with
`Integer` indices (via the wrapping `as usize` cast and a panicking
`unwrap`); `Fields` is `unimplemented!()`; `Attribute` yields a bound
`Function` handle or panics; `FunctionCall` dispatches to the registry,
eagerly evaluating the first argument when there is no receiver. -/
def CelType.member (v : CelType) (m : Member) (ctx : Context) :
    Except EvalError CelType :=
  match m with
  | .index idxExpr => do
    let idx ← CelType.resolve idxExpr ctx
    match v, idx with
    | .list items, .integer i =>
      match items[usizeOfInt i]? with
      | some x => pure x
      | none => .error .panicUnwrap
    | _, _ => .error .panicUnimplemented
  | .fields _ => .error .panicUnimplemented
  | .attribute name =>
    if (ctx.functions name).isSome then .ok (.function name (some v))
    else .error .panicUnreachable
  | .functionCall args =>
    match v with
    | .function name target =>
      match ctx.functions name with
      | none => .error .panicUnwrap
      | some f =>
        match target with
        | none =>
          match args with
          | [] => f.apply none [] ctx
          | a :: rest => do
            let first ← CelType.resolve a ctx
            f.apply (some first) rest ctx
        | some t => f.apply (some t) args ctx
    | _ => .error .panicUnreachable

end

/-- The empty context (no variables, no functions), the default a caller
starts from. -/
def emptyContext : Context := ⟨fun _ => none, fun _ => none⟩

/-- A context with exactly the builtin `size` registered, as the
benchmark harness sets up. -/
def sizeContext : Context :=
  ⟨fun _ => none, fun n => if n = "size" then some .size else none⟩

/-- Whether a value is the transient `Function` variant. -/
def CelType.isFunction : CelType → Bool
  | .function _ _ => true
  | _ => false

/-- Whether `size` accepts the value: `List`, `Map`, `String` or `Bytes`. -/
def CelType.sizeable : CelType → Bool
  | .list _ => true
  | .map _ => true
  | .string _ => true
  | .bytes _ => true
  | _ => false

/-- The measure `size` reports: element count for `List`/`Map`, UTF-8 byte
length for `String` (Rust `String::len`), byte count for `Bytes`;
zero (never used) on other variants. -/
def CelType.lengthOf : CelType → Nat
  | .list l => l.length
  | .map m => m.length
  | .string s => s.utf8ByteSize
  | .bytes b => b.length
  | _ => 0

/-- Whether a receiver/index pair is the one implemented case of
`Member::Index`: a `List` receiver with an `Integer` index. -/
def isListIntIndex : CelType → CelType → Bool
  | .list _, .integer _ => true
  | _, _ => false

/-- The AST of the method-call form `x.size()`:
`Member(Member(x, Attribute("size")), FunctionCall([]))`. -/
def methodSizeCall (x : Expression) : Expression :=
  .member (.member x (.attribute "size")) (.functionCall [])

/-- The AST of the free-call form `size(x)`:
`Member(Ident("size"), FunctionCall([x]))`. -/
def freeSizeCall (x : Expression) : Expression :=
  .member (.ident "size") (.functionCall [x])

/-- The value bound to a key by the **last** pair of a pair list that
mentions it (`none` when no pair does). -/
def lastBinding : List (CelKey × CelType) → CelKey → Option CelType
  | [], _ => none
  | p :: rest, k =>
    match lastBinding rest k with
    | some v => some v
    | none => if p.1 == k then some p.2 else none

/-- The key column of a map's entry list. -/
def mapKeys (m : List (CelKey × CelType)) : List CelKey := m.map Prod.fst

/-! ## General lemmas about the evaluation monad and the value domain -/

@[simp]
theorem evalBind_ok {α β : Type} (v : α) (f : α → Except EvalError β) :
    (Except.ok v : Except EvalError α) >>= f = f v := rfl

@[simp]
theorem evalBind_error {α β : Type} (e : EvalError) (f : α → Except EvalError β) :
    (Except.error e : Except EvalError α) >>= f = Except.error e := rfl

@[simp]
theorem evalPure_def {α : Type} (v : α) :
    (pure v : Except EvalError α) = Except.ok v := rfl

/-! ## Lemmas about the association-list model of `HashMap` -/

theorem mapContains_false_lookup (m : List (CelKey × CelType)) (k : CelKey)
    (h : mapContains m k = false) : mapLookup m k = none := by
  induction m with
  | nil => rfl
  | cons p rest ih =>
    simp [mapContains] at h
    simp [mapLookup, h.1, ih h.2]

theorem mapLookup_replace_ne (m : List (CelKey × CelType)) (k : CelKey)
    (v : CelType) (k' : CelKey) (hne : k' ≠ k) :
    mapLookup (m.map (keyReplace k v)) k' = mapLookup m k' := by
  induction m with
  | nil => rfl
  | cons p rest ih =>
    by_cases hp : p.1 = k
    · have h1 : keyReplace k v p = (k, v) := by simp [keyReplace, hp]
      simp only [List.map_cons, mapLookup, h1]
      have h2 : (k == k') = false := by simp [Ne.symm hne]
      have h3 : (p.1 == k') = false := by simp [hp, Ne.symm hne]
      simp [h2, h3, ih]
    · have h1 : keyReplace k v p = p := by simp [keyReplace, hp]
      simp only [List.map_cons, mapLookup, h1]
      by_cases hp' : p.1 = k' <;> simp [hp', ih]

theorem mapLookup_replace_eq (m : List (CelKey × CelType)) (k : CelKey)
    (v : CelType) (h : mapContains m k = true) :
    mapLookup (m.map (keyReplace k v)) k = some v := by
  induction m with
  | nil => simp [mapContains] at h
  | cons p rest ih =>
    by_cases hp : p.1 = k
    · have h1 : keyReplace k v p = (k, v) := by simp [keyReplace, hp]
      simp [mapLookup, h1]
    · simp [mapContains, hp] at h
      have h1 : keyReplace k v p = p := by simp [keyReplace, hp]
      simp [mapLookup, h1, hp, ih h]

theorem mapLookup_append (m₁ m₂ : List (CelKey × CelType)) (k : CelKey) :
    mapLookup (m₁ ++ m₂) k =
      match mapLookup m₁ k with
      | some v => some v
      | none => mapLookup m₂ k := by
  induction m₁ with
  | nil => simp [mapLookup]
  | cons p rest ih =>
    by_cases hp : p.1 = k <;> simp [mapLookup, hp, ih]

/-- `HashMap::insert` has the expected lookup behaviour: the inserted key
maps to the new value and every other key is untouched. -/
theorem mapLookup_insert (m : List (CelKey × CelType)) (k : CelKey)
    (v : CelType) (k' : CelKey) :
    mapLookup (mapInsert m k v) k' = if k' = k then some v else mapLookup m k' := by
  unfold mapInsert
  by_cases hc : mapContains m k = true
  · simp only [hc, if_true]
    by_cases hk : k' = k
    · subst hk
      simp [mapLookup_replace_eq m k' v hc]
    · simp [hk, mapLookup_replace_ne m k v k' hk]
  · simp only [Bool.not_eq_true] at hc
    simp only [hc, Bool.false_eq_true, if_false]
    rw [mapLookup_append]
    by_cases hk : k' = k
    · subst hk
      simp [mapContains_false_lookup m k' hc, mapLookup]
    · cases hm : mapLookup m k' <;> simp [hm, mapLookup, Ne.symm hk, hk]

theorem keyReplace_fst (k : CelKey) (v : CelType) (p : CelKey × CelType) :
    (keyReplace k v p).1 = p.1 := by
  unfold keyReplace
  by_cases hp : p.1 = k <;> simp [hp]

theorem mapKeys_replace (m : List (CelKey × CelType)) (k : CelKey)
    (v : CelType) : mapKeys (m.map (keyReplace k v)) = mapKeys m := by
  induction m with
  | nil => rfl
  | cons p rest ih =>
    simp [mapKeys, keyReplace_fst] at *

theorem mapKeys_insert_contains (m : List (CelKey × CelType)) (k : CelKey)
    (v : CelType) (h : mapContains m k = true) :
    mapKeys (mapInsert m k v) = mapKeys m := by
  unfold mapInsert
  simp only [h, if_true]
  exact mapKeys_replace m k v

theorem mapContains_false_not_mem (m : List (CelKey × CelType)) (k : CelKey)
    (h : mapContains m k = false) : k ∉ mapKeys m := by
  induction m with
  | nil => simp [mapKeys]
  | cons p rest ih =>
    simp [mapContains] at h
    simp [mapKeys] at *
    exact ⟨fun he => h.1 he.symm, ih h.2⟩

/-- `HashMap::insert` keeps keys unique. -/
theorem mapKeys_nodup_insert (m : List (CelKey × CelType)) (k : CelKey)
    (v : CelType) (h : (mapKeys m).Nodup) :
    (mapKeys (mapInsert m k v)).Nodup := by
  by_cases hc : mapContains m k = true
  · rw [mapKeys_insert_contains m k v hc]
    exact h
  · simp only [Bool.not_eq_true] at hc
    unfold mapInsert
    simp only [hc, Bool.false_eq_true, if_false]
    have hkeys : mapKeys (m ++ [(k, v)]) = mapKeys m ++ [k] := by
      simp [mapKeys]
    rw [hkeys]
    simp [List.nodup_append, h, mapContains_false_not_mem m k hc]

/-- Folding inserts over a pair list: the key's binding is the one from
the **last** pair mentioning it, falling back to the initial map. -/
theorem mapLookup_insertAll (ps : List (CelKey × CelType)) :
    ∀ (m : List (CelKey × CelType)) (k : CelKey),
      mapLookup (mapInsertAll m ps) k =
        match lastBinding ps k with
        | some v => some v
        | none => mapLookup m k := by
  induction ps with
  | nil => intro m k; simp [mapInsertAll, lastBinding]
  | cons p rest ih =>
    intro m k
    have step : mapInsertAll m (p :: rest) = mapInsertAll (mapInsert m p.1 p.2) rest := by
      simp [mapInsertAll]
    rw [step, ih]
    simp only [lastBinding]
    cases hl : lastBinding rest k
    · rw [mapLookup_insert]
      by_cases hk : k = p.1
      · subst hk
        simp
      · have hne : (p.1 == k) = false := by simpa using Ne.symm hk
        simp [hk, hne]
    · rfl

theorem mapKeys_nodup_insertAll (ps : List (CelKey × CelType)) :
    ∀ (m : List (CelKey × CelType)), (mapKeys m).Nodup →
      (mapKeys (mapInsertAll m ps)).Nodup := by
  induction ps with
  | nil => intro m h; simpa [mapInsertAll] using h
  | cons p rest ih =>
    intro m h
    have step : mapInsertAll m (p :: rest) = mapInsertAll (mapInsert m p.1 p.2) rest := by
      simp [mapInsertAll]
    rw [step]
    exact ih _ (mapKeys_nodup_insert m p.1 p.2 h)

/-! ## The claims -/

/-- Claim C1: `Or(E1, E2)` first evaluates `E1`; if the value is truthy the
whole `Or` yields that value itself, unconverted to `Bool`, and equals
`evaluate(E1)` — `E2` contributes nothing, so the `Or` succeeds even if
`E2` would error; if the value is falsy the `Or` equals `evaluate(E2)`,
also unconverted. -/
theorem or_short_circuit_value (e₁ e₂ : Expression) (ctx : Context)
    (v : CelType) (h : CelType.resolve e₁ ctx = .ok v) :
    (v.toBool = true →
      CelType.resolve (.or e₁ e₂) ctx = .ok v ∧
      CelType.resolve (.or e₁ e₂) ctx = CelType.resolve e₁ ctx) ∧
    (v.toBool = false →
      CelType.resolve (.or e₁ e₂) ctx = CelType.resolve e₂ ctx) := by
  refine ⟨fun ht => ⟨?_, ?_⟩, fun hf => ?_⟩ <;>
    simp [CelType.resolve, h, *]

/-- Witness for C1: `true || <unknown ident>` evaluates to `Bool(true)`
even though the right operand alone would panic. -/
theorem or_short_circuit_value_witness :
    CelType.resolve (.or (.atom (.bool true)) (.ident "bad")) emptyContext
      = .ok (.bool true) :=
  ((or_short_circuit_value (.atom (.bool true)) (.ident "bad") emptyContext
    (.bool true) rfl).1 rfl).1

/-- Claim C2: `And(E1, E2)` evaluates both operands — an error in `E2`
surfaces even when `E1` is falsy, so there is no short-circuit — and when
both succeed the result is `Bool(truthy(E1) && truthy(E2))`, always a
`Bool`. -/
theorem and_evaluates_both (e₁ e₂ : Expression) (ctx : Context)
    (v₁ : CelType) (h₁ : CelType.resolve e₁ ctx = .ok v₁) :
    (∀ err, CelType.resolve e₂ ctx = .error err →
      CelType.resolve (.and e₁ e₂) ctx = .error err) ∧
    (∀ v₂, CelType.resolve e₂ ctx = .ok v₂ →
      CelType.resolve (.and e₁ e₂) ctx = .ok (.bool (v₁.toBool && v₂.toBool))) := by
  constructor
  · intro err h₂
    simp [CelType.resolve, h₁, h₂]
  · intro v₂ h₂
    simp [CelType.resolve, h₁, h₂]

/-- Witness for C2: `false && <unknown ident>` fails — the right operand is
evaluated although the left is already falsy. -/
theorem and_evaluates_both_witness :
    CelType.resolve (.and (.atom (.bool false)) (.ident "bad")) emptyContext
      = .error .panicUnreachable :=
  (and_evaluates_both (.atom (.bool false)) (.ident "bad") emptyContext
    (.bool false) rfl).1 .panicUnreachable rfl

/-- Counterexample to claim C3: `Integer(1) == Decimal(1.0)` evaluates to
`Bool(false)` (the claim says `true`), and `Integer(5) < Decimal(0.5)`
evaluates to `Bool(true)` (numerically it is false): the derived
comparisons do not promote the integer. -/
theorem int_decimal_no_promotion_cex :
    CelType.resolve (.relation (.atom (.integer 1)) .equals (.atom (.decimal 1)))
      emptyContext = .ok (.bool false) ∧
    CelType.resolve (.relation (.atom (.integer 5)) .lessThan (.atom (.decimal (1/2))))
      emptyContext = .ok (.bool true) := by
  constructor
  · simp [CelType.resolve, Atom.toCel, CelType.beq]
  · simp [CelType.resolve, Atom.toCel, CelType.ltB, CelType.celCmp, CelType.tag]
    decide

/-- Amended C3: comparisons between `Integer` and `Decimal` never promote.
Equality is derived structural equality, hence always false across the two
variants (and `!=` always true); ordering is derived variant order, so
every `Integer` is strictly below every `Decimal` regardless of the
numeric values. -/
theorem int_decimal_variant_order (e₁ e₂ : Expression) (ctx : Context)
    (i : Int) (d : Rat)
    (h₁ : CelType.resolve e₁ ctx = .ok (.integer i))
    (h₂ : CelType.resolve e₂ ctx = .ok (.decimal d)) :
    CelType.resolve (.relation e₁ .equals e₂) ctx = .ok (.bool false) ∧
    CelType.resolve (.relation e₁ .notEquals e₂) ctx = .ok (.bool true) ∧
    CelType.resolve (.relation e₁ .lessThan e₂) ctx = .ok (.bool true) ∧
    CelType.resolve (.relation e₁ .lessThanEq e₂) ctx = .ok (.bool true) ∧
    CelType.resolve (.relation e₁ .greaterThan e₂) ctx = .ok (.bool false) ∧
    CelType.resolve (.relation e₁ .greaterThanEq e₂) ctx = .ok (.bool false) ∧
    CelType.resolve (.relation e₂ .lessThan e₁) ctx = .ok (.bool false) ∧
    CelType.resolve (.relation e₂ .greaterThan e₁) ctx = .ok (.bool true) := by
  refine ⟨?_, ?_, ?_, ?_, ?_, ?_, ?_, ?_⟩ <;>
    simp [CelType.resolve, h₁, h₂, CelType.beq, CelType.ltB, CelType.leB,
      CelType.gtB, CelType.geB, CelType.celCmp, CelType.tag] <;> decide

/-- Witness for amended C3: `7 < 0.5` evaluates to `Bool(true)`. -/
theorem int_decimal_variant_order_witness :
    CelType.resolve (.relation (.atom (.integer 7)) .lessThan (.atom (.decimal (1/2))))
      emptyContext = .ok (.bool true) :=
  (int_decimal_variant_order (.atom (.integer 7)) (.atom (.decimal (1/2)))
    emptyContext 7 (1/2) rfl rfl).2.2.1

/-- Counterexample to claim C4: evaluating `[1][1]` (index equal to the
length) fails with the `unwrap`-on-`None` panic, not with an
`IndexOutOfRange` error — no such error value is ever produced. -/
theorem list_index_out_of_range_cex :
    CelType.resolve (.member (.list [.atom (.integer 1)]) (.index (.atom (.integer 1))))
      emptyContext = .error .panicUnwrap ∧
    CelType.resolve (.member (.list [.atom (.integer 1)]) (.index (.atom (.integer 1))))
      emptyContext ≠ .error .indexOutOfRange := by
  constructor <;>
    simp [CelType.resolve, CelType.member, CelType.resolveList, Atom.toCel,
      usizeOfInt]

/-- Amended C4: for a list of length `n` and an `i64` index `k`, `xs[k]`
returns the element at position `k` when `0 ≤ k < n`; when `k ≥ n`, and
when `k < 0` (the `as usize` cast wraps a negative `i64` to an index of at
least `2^63`, beyond any real vector's length `n < 2^63`), evaluation
fails with the `unwrap` panic rather than an `IndexOutOfRange` error. -/
theorem list_index_panic (e ie : Expression) (ctx : Context)
    (xs : List CelType) (k : Int)
    (he : CelType.resolve e ctx = .ok (.list xs))
    (hi : CelType.resolve ie ctx = .ok (.integer k))
    (hlo : -(2 ^ 63) ≤ k) (hhi : k < 2 ^ 63) :
    (∀ x, 0 ≤ k → xs[k.toNat]? = some x →
      CelType.resolve (.member e (.index ie)) ctx = .ok x) ∧
    (0 ≤ k → xs.length ≤ k.toNat →
      CelType.resolve (.member e (.index ie)) ctx = .error .panicUnwrap) ∧
    (k < 0 → xs.length < 2 ^ 63 →
      CelType.resolve (.member e (.index ie)) ctx = .error .panicUnwrap) := by
  have hu : 0 ≤ k → usizeOfInt k = k.toNat := by
    intro h0
    unfold usizeOfInt
    rw [Int.emod_eq_of_lt h0 (by omega)]
  refine ⟨?_, ?_, ?_⟩
  · intro x h0 hget
    simp [CelType.resolve, CelType.member, he, hi, hu h0, hget]
  · intro h0 hlen
    have hnone : xs[usizeOfInt k]? = none := by
      rw [hu h0]
      exact List.getElem?_eq_none hlen
    simp [CelType.resolve, CelType.member, he, hi, hnone]
  · intro hneg hword
    have hm : k % (2 ^ 64 : Int) = k + 2 ^ 64 := by omega
    have hnone : xs[usizeOfInt k]? = none := by
      apply List.getElem?_eq_none
      unfold usizeOfInt
      rw [hm]
      omega
    simp [CelType.resolve, CelType.member, he, hi, hnone]

/-- Witness for amended C4: `[10][0]` returns `Integer(10)`, and
`[10][-1]` fails with the `unwrap` panic. -/
theorem list_index_panic_witness :
    CelType.resolve (.member (.list [.atom (.integer 10)]) (.index (.atom (.integer 0))))
      emptyContext = .ok (.integer 10) ∧
    CelType.resolve (.member (.list [.atom (.integer 10)]) (.index (.atom (.integer (-1)))))
      emptyContext = .error .panicUnwrap :=
  ⟨(list_index_panic (.list [.atom (.integer 10)]) (.atom (.integer 0))
      emptyContext [.integer 10] 0 rfl rfl (by decide) (by decide)).1
      (.integer 10) (by decide) rfl,
    (list_index_panic (.list [.atom (.integer 10)]) (.atom (.integer (-1)))
      emptyContext [.integer 10] (-1) rfl rfl (by decide) (by decide)).2.2
      (by decide) (by decide)⟩

/-- Counterexample to claim C5: evaluating `{1: 2}[1]` — a map lookup with
a present key — fails with the `unimplemented!()` panic instead of
returning the mapped value `Integer(2)`; map indexing does not exist. -/
theorem map_index_unimplemented_cex :
    CelType.resolve (.member (.map [(.atom (.integer 1), .atom (.integer 2))])
      (.index (.atom (.integer 1)))) emptyContext = .error .panicUnimplemented ∧
    CelType.resolve (.member (.map [(.atom (.integer 1), .atom (.integer 2))])
      (.index (.atom (.integer 1)))) emptyContext ≠ .ok (.integer 2) := by
  constructor <;>
    simp [CelType.resolve, CelType.member, CelType.resolveMapItems,
      CelType.tryIntoKey, Atom.toCel, mapInsertAll, mapInsert, mapContains]

/-- Amended C5: `Member::Index` is implemented solely for a `List`
receiver with an `Integer` index; every other receiver/index pair —
including every `Map` lookup — fails with the `unimplemented!()` panic.
There is no `Key` coercion, no `NoSuchKey`, and no `TypeMismatch`. -/
theorem index_non_list_unimplemented (e ie : Expression) (ctx : Context)
    (v vi : CelType)
    (he : CelType.resolve e ctx = .ok v)
    (hi : CelType.resolve ie ctx = .ok vi)
    (hn : isListIntIndex v vi = false) :
    CelType.resolve (.member e (.index ie)) ctx = .error .panicUnimplemented := by
  simp only [CelType.resolve, CelType.member, he, hi, evalBind_ok]
  cases v <;> cases vi <;> simp_all [isListIntIndex]

/-- Witness for amended C5: `{1: 2}[3]` fails with the `unimplemented!()`
panic. -/
theorem index_non_list_unimplemented_witness :
    CelType.resolve (.member (.map [(.atom (.integer 1), .atom (.integer 2))])
      (.index (.atom (.integer 3)))) emptyContext = .error .panicUnimplemented :=
  index_non_list_unimplemented
    (.map [(.atom (.integer 1), .atom (.integer 2))]) (.atom (.integer 3))
    emptyContext (.map [(.integer 1, .integer 2)]) (.integer 3) rfl rfl rfl

/-- Counterexample to claim C6: `{} < {}` evaluates to `Bool(false)` — a
`Bool` value, not a `TypeMismatch` failure. -/
theorem map_relational_cex :
    CelType.resolve (.relation (.map []) .lessThan (.map [])) emptyContext
      = .ok (.bool false) ∧
    CelType.resolve (.relation (.map []) .lessThan (.map [])) emptyContext
      ≠ .error .typeMismatch := by
  constructor <;>
    simp [CelType.resolve, CelType.resolveMapItems, mapInsertAll, CelType.ltB,
      CelType.celCmp]

/-- Amended C6: a relational comparison (`<`, `<=`, `>`, `>=`) of two map
values always evaluates to `Bool(false)`: `CelMap::partial_cmp` returns
`None`, and each Rust comparison operator turns `None` into `false`.  It
does not fail. -/
theorem map_relational_false (e₁ e₂ : Expression) (ctx : Context)
    (m₁ m₂ : List (CelKey × CelType)) (op : RelationOp)
    (h₁ : CelType.resolve e₁ ctx = .ok (.map m₁))
    (h₂ : CelType.resolve e₂ ctx = .ok (.map m₂))
    (hop : op = .lessThan ∨ op = .lessThanEq ∨ op = .greaterThan ∨
      op = .greaterThanEq) :
    CelType.resolve (.relation e₁ op e₂) ctx = .ok (.bool false) := by
  rcases hop with h | h | h | h <;> subst h <;>
    simp [CelType.resolve, h₁, h₂, CelType.ltB, CelType.leB, CelType.gtB,
      CelType.geB, CelType.celCmp]

/-- Witness for amended C6: `{} >= {}` evaluates to `Bool(false)`. -/
theorem map_relational_false_witness :
    CelType.resolve (.relation (.map []) .greaterThanEq (.map [])) emptyContext
      = .ok (.bool false) :=
  map_relational_false (.map []) (.map []) emptyContext [] [] .greaterThanEq
    rfl rfl (Or.inr (Or.inr (Or.inr rfl)))

/-- Counterexample to claim C7: the top-level expression `size` — a bare
identifier naming the registered builtin — evaluates to the `Function`
variant, so a `Function` value does escape the evaluator as a final
result. -/
theorem function_escape_cex :
    CelType.resolve (.ident "size") sizeContext = .ok (.function "size" none) ∧
    (CelType.function "size" none).isFunction = true := by
  constructor
  · simp [CelType.resolve, sizeContext]
  · rfl

/-- Amended C7: `Ident` resolution checks the function registry first and
yields `Function(name, None)` for any registered name; nothing intercepts
this value at top level, so an expression consisting solely of such an
identifier has a `Function` value as its final result. -/
theorem ident_function_resolves_to_function (ctx : Context) (name : String)
    (h : (ctx.functions name).isSome) :
    CelType.resolve (.ident name) ctx = .ok (.function name none) := by
  simp [CelType.resolve, h]

/-- Witness for amended C7: with `size` registered, resolving the bare
identifier `size` yields `Function("size", None)`. -/
theorem ident_function_resolves_to_function_witness :
    CelType.resolve (.ident "size") sizeContext = .ok (.function "size" none) :=
  ident_function_resolves_to_function sizeContext "size" (by decide)

/-- Claim C8: with the builtin `size` registered, the method form
`x.size()` and the free form `size(x)` evaluate to the same `Integer` —
the element count of a `List`/`Map` or the byte length of a
`String`/`Bytes` (cast `as i64`): the free call has no receiver, so its
first argument is evaluated eagerly and passed as the receiver. -/
theorem size_method_free_equiv (ctx : Context) (xe : Expression) (v : CelType)
    (hf : ctx.functions "size" = some .size)
    (hx : CelType.resolve xe ctx = .ok v)
    (hv : v.sizeable = true) :
    CelType.resolve (methodSizeCall xe) ctx = .ok (.integer (i64OfUsize v.lengthOf)) ∧
    CelType.resolve (freeSizeCall xe) ctx = .ok (.integer (i64OfUsize v.lengthOf)) := by
  have hsz : sizeFn (some v) = .ok (.integer (i64OfUsize v.lengthOf)) := by
    cases v <;> simp_all [sizeFn, CelType.sizeable, CelType.lengthOf]
  constructor
  · simp [methodSizeCall, CelType.resolve, CelType.member, hx, hf,
      BuiltinFn.apply, hsz]
  · simp [freeSizeCall, CelType.resolve, CelType.member, hx, hf,
      BuiltinFn.apply, hsz]

/-- Witness for C8: `[1, 2].size()` and `size([1, 2])` both evaluate to
`Integer(2)`. -/
theorem size_method_free_equiv_witness :
    CelType.resolve (methodSizeCall (.list [.atom (.integer 1), .atom (.integer 2)]))
      sizeContext = .ok (.integer 2) ∧
    CelType.resolve (freeSizeCall (.list [.atom (.integer 1), .atom (.integer 2)]))
      sizeContext = .ok (.integer 2) :=
  size_method_free_equiv sizeContext
    (.list [.atom (.integer 1), .atom (.integer 2)])
    (.list [.integer 1, .integer 2]) rfl rfl rfl

/-- Claim C9: a map literal evaluates its pairs in iteration order, each
key coerced to a `CelKey`; the built map's keys are unique, and a key
reduced to by several pairs is bound to the **last** such pair's value. -/
theorem map_literal_last_wins (items : List (Expression × Expression))
    (ctx : Context) (rs : List (CelKey × CelType))
    (h : CelType.resolveMapItems items ctx = .ok rs) :
    CelType.resolve (.map items) ctx = .ok (.map (mapInsertAll [] rs)) ∧
    (mapKeys (mapInsertAll [] rs)).Nodup ∧
    (∀ k, mapLookup (mapInsertAll [] rs) k = lastBinding rs k) := by
  refine ⟨?_, ?_, ?_⟩
  · simp [CelType.resolve, h]
  · exact mapKeys_nodup_insertAll rs [] (by simp [mapKeys])
  · intro k
    rw [mapLookup_insertAll]
    cases hl : lastBinding rs k <;> simp [mapLookup]

/-- Witness for C9: the literal `{1: 2, 1: 3}` evaluates to a one-entry
map binding key `1` to `Integer(3)`, the value of the later pair. -/
theorem map_literal_last_wins_witness :
    CelType.resolve (.map [(.atom (.integer 1), .atom (.integer 2)),
      (.atom (.integer 1), .atom (.integer 3))]) emptyContext
      = .ok (.map [(.integer 1, .integer 3)]) ∧
    mapLookup (mapInsertAll [] [((.integer 1 : CelKey), (.integer 2 : CelType)),
      (.integer 1, .integer 3)]) (.integer 1) = some (.integer 3) :=
  ⟨(map_literal_last_wins [(.atom (.integer 1), .atom (.integer 2)),
      (.atom (.integer 1), .atom (.integer 3))] emptyContext
      [(.integer 1, .integer 2), (.integer 1, .integer 3)] rfl).1,
    (map_literal_last_wins [(.atom (.integer 1), .atom (.integer 2)),
      (.atom (.integer 1), .atom (.integer 3))] emptyContext
      [(.integer 1, .integer 2), (.integer 1, .integer 3)] rfl).2.2 (.integer 1)⟩

/-- Claim C10: `size` on a `String` reports the UTF-8 **byte** length
(Rust `String::len`), not the character count: on every string the result
is the byte length cast `as i64`, and on the two-character string
`"aé"` it is `Integer(3)`, exceeding the character count `2`. -/
theorem size_string_byte_length (ctx : Context) (s : String)
    (hf : ctx.functions "size" = some .size) :
    CelType.resolve (freeSizeCall (.atom (.string s))) ctx
      = .ok (.integer (i64OfUsize s.utf8ByteSize)) ∧
    (CelType.resolve (freeSizeCall (.atom (.string "aé"))) sizeContext
      = .ok (.integer 3) ∧ ("aé".length = 2)) := by
  refine ⟨?_, ?_, ?_⟩
  · simp [freeSizeCall, CelType.resolve, CelType.member, hf, Atom.toCel,
      BuiltinFn.apply, sizeFn]
  · simp [freeSizeCall, CelType.resolve, CelType.member, sizeContext, Atom.toCel,
      BuiltinFn.apply, sizeFn]
    rfl
  · rfl

/-- Witness for C10: `size('abc')` evaluates to `Integer(3)`. -/
theorem size_string_byte_length_witness :
    CelType.resolve (freeSizeCall (.atom (.string "abc"))) sizeContext
      = .ok (.integer 3) :=
  (size_string_byte_length sizeContext "abc" rfl).1
